import Mathlib

/-!
A verification development for a ToC-extraction program (`src/main.py`).
The program scans per-page text for table-of-contents lines, parses them
into structured entries, extracts per-section content windows, and
reconciles the declared ToC against the parsed section list.

The embedding below is a shallow model of `main.py`:
* Python's `re` patterns are modelled by a small backtracking matcher
  (`reTry`) with Python's priority semantics: ordered alternation,
  greedy quantifiers (longest first), leftmost search.  Character
  classes are modelled over ASCII, which covers every character the
  patterns and the inputs of interest use.
* Python strings are `String`, page lists are `List String`, and
  fallible indexing (`text_pages[i]`, which can raise `IndexError` or
  wrap around for negative indices) is modelled by `pyGet` returning
  `Option`, with exceptions propagated as `none` / `Except.error`.
* `pandas.merge(..., on="section_id", how="outer")` is modelled by
  `mergeOuter`, the full outer join with per-key cross products; the
  claims only depend on row counts, which are order-independent.
-/

/-- Python `str.isspace` characters relevant to `str.strip()` (ASCII). -/
def isPySpace (c : Char) : Bool :=
  c = ' ' || c = '\t' || c = '\n' || c = '\r' || c = '\x0b' || c = '\x0c'

/-- Python regex `\d` over ASCII. -/
def isPyDigit (c : Char) : Bool := c.isDigit

/-- Python regex `\w` over ASCII: letters, digits, underscore. -/
def isPyWordChar (c : Char) : Bool := c.isAlphanum || c = '_'

/-- Python regex `[A-Za-z]`. -/
def isAsciiLetter (c : Char) : Bool := c.isAlpha

/-- `str.strip()` on a character list: drop whitespace from both ends. -/
def pyStripList (s : List Char) : List Char :=
  ((s.dropWhile isPySpace).reverse.dropWhile isPySpace).reverse

/-- Python `str.strip()`. -/
def pyStrip (s : String) : String := String.mk (pyStripList s.toList)

/-- Case-insensitive "starts with" (both sides lower-cased, as CPython's
`re.IGNORECASE` does for ASCII). -/
def ciStartsWith : List Char → List Char → Bool
  | [], _ => true
  | _ :: _, [] => false
  | c :: t, d :: s => (c.toLower = d.toLower) && ciStartsWith t s

/-- First index at which `t` occurs case-insensitively in the suffix, offset
by `k`.  Models `re.search(re.escape(t), s, re.IGNORECASE)`. -/
def ciFindFrom (t : List Char) : List Char → Nat → Option Nat
  | [], k => if ciStartsWith t [] then some k else none
  | c :: s', k =>
    if ciStartsWith t (c :: s') then some k else ciFindFrom t s' (k + 1)

/-- First index of a case-insensitive occurrence of `t` in `s`. -/
def ciFind (t s : List Char) : Option Nat := ciFindFrom t s 0

/-- Case-sensitive substring test, Python's `t in s`. -/
def containsSub (t : List Char) : List Char → Bool
  | [] => t.isEmpty
  | c :: s' => t.isPrefixOf (c :: s') || containsSub t s'

/-- `int()` on a run of ASCII digits. -/
def digitsToNat (s : List Char) : Nat :=
  s.foldl (fun a c => 10 * a + (c.toNat - '0'.toNat)) 0

/-! ### A small backtracking regex matcher with Python priority semantics -/

/-- Regex syntax: ordered alternation, greedy star, capture groups, the
`$` end anchor and the `\b` word boundary. -/
inductive RE where
  | eps
  | cls (p : Char → Bool)
  | cat (a b : RE)
  | alt (a b : RE)
  | star (a : RE)
  | group (idx : Nat) (a : RE)
  | endA
  | wordB

/-- Closed capture groups: (index, start, stop). -/
abbrev Caps := List (Nat × Nat × Nat)

/-- Is the character at position `i` (if any) a word character? -/
def wordAt (s : List Char) (i : Nat) : Bool :=
  match s.get? i with
  | some c => isPyWordChar c
  | none => false

/-- Is the character just before position `i` (if any) a word character? -/
def wordBefore (s : List Char) (i : Nat) : Bool :=
  match i with
  | 0 => false
  | j + 1 => wordAt s j

/-- A success continuation: given the position and captures after the
current sub-pattern, either finish the whole match or fail (causing
the sub-pattern to backtrack to its next alternative). -/
abbrev MatchK := Nat → Caps → Option (Nat × Caps)

/-- One layer of the backtracking matcher in continuation-passing
style, structurally recursive on the regex; star iteration is
delegated to `starTry` (instantiated by `reTry` with one unit of fuel
less).  Alternatives are tried in Python's priority order (ordered
alternation, greedy quantifiers), so the returned match is exactly the
one Python reports. -/
def reTryAux (s : List Char)
    (starTry : RE → Nat → Caps → MatchK → Option (Nat × Caps)) :
    RE → Nat → Caps → MatchK → Option (Nat × Caps)
  | .eps, i, caps, k => k i caps
  | .cls p, i, caps, k =>
    match s.get? i with
    | some c => if p c then k (i + 1) caps else none
    | none => none
  | .cat a b, i, caps, k =>
    reTryAux s starTry a i caps (fun j c => reTryAux s starTry b j c k)
  | .alt a b, i, caps, k =>
    match reTryAux s starTry a i caps k with
    | some r => some r
    | none => reTryAux s starTry b i caps k
  | .star a, i, caps, k =>
    match reTryAux s starTry a i caps
        (fun j c => if i < j then starTry (.star a) j c k else none) with
    | some r => some r
    | none => k i caps
  | .group idx a, i, caps, k =>
    reTryAux s starTry a i caps (fun j c => k j ((idx, i, j) :: c))
  | .endA, i, caps, k =>
    if i = s.length ∨ (i + 1 = s.length ∧ s.get? i = some '\n') then
      k i caps
    else none
  | .wordB, i, caps, k =>
    if wordBefore s i = wordAt s i then none else k i caps

/-- The backtracking matcher.  `fuel` bounds chained star iterations;
every iteration must consume at least one character (the `i < j`
guard, matching Python's empty-match rule), so `s.length + 1` fuel
always reproduces the unbounded backtracking semantics. -/
def reTry (s : List Char) : Nat → RE → Nat → Caps → MatchK → Option (Nat × Caps)
  | 0 => reTryAux s (fun _ _ _ _ => none)
  | fuel + 1 => reTryAux s (reTry s fuel)

/-- `pattern.match(s)`: anchored at position 0, highest-priority
outcome, as `(end-position, captures)`. -/
def reMatch (re : RE) (s : List Char) : Option (Nat × Caps) :=
  reTry s (s.length + 1) re 0 [] (fun i caps => some (i, caps))

/-- `pattern.search(s)`: leftmost position with a match, then
highest-priority outcome there; returns (start, end, captures). -/
def reSearch (re : RE) (s : List Char) : Option (Nat × Nat × Caps) :=
  (List.range (s.length + 1)).findSome? (fun i =>
    (reTry s (s.length + 1) re i [] (fun j caps => some (j, caps))).map
      (fun x => (i, x.1, x.2)))

/-- `a+` (greedy). -/
def REplus (a : RE) : RE := .cat a (.star a)

/-- `a{3,}` (greedy). -/
def RErep3 (a : RE) : RE := .cat a (.cat a (.cat a (.star a)))

/-- A literal character. -/
def RElit (c : Char) : RE := .cls (fun d => d = c)

/-- A case-insensitive literal character. -/
def REci (c : Char) : RE := .cls (fun d => d.toLower = c.toLower)

/-- A case-insensitive literal string. -/
def REstrCI (t : String) : RE :=
  t.toList.foldr (fun c r => RE.cat (REci c) r) .eps

/-! ### The program's compiled patterns -/

/-- `TOC_ENTRY_PATTERN`'s section-id alternative:
`(\d+(\.\d+)*)|([A-Za-z][\w\s]*)` (inner unnamed groups not captured —
the program never reads them). -/
def sidRE : RE :=
  .alt
    (.cat (REplus (.cls isPyDigit))
      (.star (.cat (RElit '.') (REplus (.cls isPyDigit)))))
    (.cat (.cls isAsciiLetter)
      (.star (.cls (fun c => isPyWordChar c || isPySpace c))))

/-- `TOC_ENTRY_PATTERN`:
`^(?P<section_id>(\d+(\.\d+)*)|([A-Za-z][\w\s]*))\s+(?P<title>[^\.]{3,})\s+(?P<page>\d+)\s*$`
with named groups numbered 1 (section_id), 2 (title), 3 (page). -/
def tocRE : RE :=
  .cat (.group 1 sidRE)
    (.cat (REplus (.cls isPySpace))
      (.cat (.group 2 (RErep3 (.cls (fun c => c ≠ '.'))))
        (.cat (REplus (.cls isPySpace))
          (.cat (.group 3 (REplus (.cls isPyDigit)))
            (.cat (.star (.cls isPySpace)) .endA)))))

/-- The hierarchy test `^\d+(\.\d+)*$` from `parse_toc_entry`. -/
def numRE : RE :=
  .cat (REplus (.cls isPyDigit))
    (.cat (.star (.cat (RElit '.') (REplus (.cls isPyDigit)))) .endA)

/-- `FIGURE_TABLE_PATTERN`: `\b(Figure|Table)\s+\d+` with `re.IGNORECASE`. -/
def figTabRE : RE :=
  .cat .wordB
    (.cat (.alt (REstrCI "Figure") (REstrCI "Table"))
      (.cat (REplus (.cls isPySpace)) (REplus (.cls isPyDigit))))

/-- `FIGURE_TABLE_PATTERN.search(title)` used as a boolean. -/
def figTabFound (title : String) : Bool :=
  (reSearch figTabRE title.toList).isSome

/-! ### Data model -/

/-- The dictionary built by `parse_toc_entry`. -/
structure ToCEntry where
  doc_title : String
  section_id : String
  title : String
  page : Nat
  level : Nat
  parent_id : Option String
  full_path : String
  tags : List String
deriving Repr, DecidableEq

/-- A parsed section: the entry dictionary plus its `content` field. -/
structure PSection where
  entry : ToCEntry
  content : String
deriving Repr, DecidableEq

/-- Python `str.split(sep)` for a single-character separator, on
character lists: always at least one (possibly empty) piece. -/
def splitChar (c : Char) : List Char → List (List Char)
  | [] => [[]]
  | d :: rest =>
    match splitChar c rest with
    | [] => [[]]
    | h :: t => if d = c then [] :: h :: t else (d :: h) :: t

/-- Python `str.split(sep)` for a single-character separator. -/
def pySplit (c : Char) (s : String) : List String :=
  (splitChar c s.toList).map String.mk

/-- Group capture as a string (the program only reads groups that
participated in the match). -/
def groupStr (s : List Char) (caps : Caps) (idx : Nat) : String :=
  match caps.find? (fun x => x.1 == idx) with
  | some x => String.mk ((s.drop x.2.1).take (x.2.2 - x.2.1))
  | none => ""

/-- The hierarchy computation of `parse_toc_entry`
(level and parent id from the section id). -/
def hierOf (section_id : String) : Nat × Option String :=
  if (reMatch numRE section_id.toList).isSome then
    let parts := pySplit '.' section_id
    (parts.length,
      if parts.length > 1 then some (String.intercalate "." parts.dropLast)
      else none)
  else (1, none)

/-- The tag computation of `parse_toc_entry`: note that the membership
test `"Figure" in title` is case-sensitive, unlike the search. -/
def tagsOf (title : String) : List String :=
  if figTabFound title then
    [if containsSub "Figure".toList title.toList then "figure" else "table"]
  else []

/-- The entry dictionary `parse_toc_entry` builds from a successful
match: stripped groups, hierarchy from the section id, tags from the
title. -/
def mkEntry (s : List Char) (caps : Caps) (doc_title : String) : ToCEntry :=
  { doc_title := doc_title
    section_id := pyStrip (groupStr s caps 1)
    title := pyStrip (groupStr s caps 2)
    page := digitsToNat (pyStrip (groupStr s caps 3)).toList
    level := (hierOf (pyStrip (groupStr s caps 1))).1
    parent_id := (hierOf (pyStrip (groupStr s caps 1))).2
    full_path := pyStrip (pyStrip (groupStr s caps 1) ++ " " ++
      pyStrip (groupStr s caps 2))
    tags := tagsOf (pyStrip (groupStr s caps 2)) }

/-- `parse_toc_entry(line, doc_title)`. -/
def parse_toc_entry (line : String) (doc_title : String) :
    Option ToCEntry :=
  match reMatch tocRE (pyStrip line).toList with
  | none => none
  | some m => some (mkEntry (pyStrip line).toList m.2 doc_title)

/-- Python `text.split('\n')`. -/
def splitLines (t : String) : List String := pySplit '\n' t

/-- The scan loop of `find_toc_content`: every `(page_index, stripped
line)` whose stripped form matches `TOC_ENTRY_PATTERN`. -/
def tocScan (pages : List String) : List (Nat × String) :=
  pages.enum.flatMap (fun pr =>
    (splitLines pr.2).filterMap (fun line =>
      if (reMatch tocRE (pyStrip line).toList).isSome then
        some (pr.1, pyStrip line)
      else none))

/-- `find_toc_content`: the scan, raising `RuntimeError` when nothing is
retained (modelled as `Except.error`). -/
def find_toc_content (pages : List String) :
    Except String (List (Nat × String)) :=
  if tocScan pages = [] then
    .error "Could not find Table of Contents content in the document."
  else .ok (tocScan pages)

/-- `parse_toc_entries`: parse each retained line and overwrite `page`
with the 1-based page number of the scan position. -/
def parse_toc_entries (toc_lines : List (Nat × String))
    (doc_title : String) : List ToCEntry :=
  toc_lines.filterMap (fun pr =>
    (parse_toc_entry pr.2 doc_title).map (fun e => { e with page := pr.1 + 1 }))

/-! ### Section extraction -/

/-- Python list indexing `l[i]`: valid indices return the element,
negative indices in range wrap around, anything else raises
(modelled as `none`). -/
def pyGet (l : List String) (i : Int) : Option String :=
  if 0 ≤ i then l.get? i.toNat
  else if 0 ≤ i + l.length then l.get? (i + l.length).toNat
  else none

/-- Python `range(a, b)` over integers. -/
def intRange (a b : Int) : List Int :=
  (List.range (b - a).toNat).map (fun (k : Nat) => a + (k : Int))

/-- The code's clamped start page:
`max(0, min(section["page"] - 1, len(text_pages) - 1))`. -/
def extractStart (text_pages : List String) (sec : ToCEntry) : Int :=
  max 0 (min ((sec.page : Int) - 1) ((text_pages.length : Int) - 1))

/-- The code's clamped exclusive end page:
`min(next["page"] - 1 if next else len, len)`. -/
def extractEnd (text_pages : List String) (next_sec : Option ToCEntry) : Int :=
  min
    (match next_sec with
      | some ns => (ns.page : Int) - 1
      | none => (text_pages.length : Int))
    (text_pages.length : Int)

/-- The start-page fragment: text after the end of the first
case-insensitive occurrence of the section id, stripped; the whole
stripped page if there is no occurrence. -/
def startFrag (sec : ToCEntry) (page_text : String) : String :=
  match ciFind sec.section_id.toList page_text.toList with
  | some k =>
    pyStrip (String.mk (page_text.toList.drop (k + sec.section_id.toList.length)))
  | none => pyStrip page_text

/-- The end-page fragment: text before the first case-insensitive
occurrence of the next section id, stripped; the whole stripped page
if there is no occurrence. -/
def endFragTxt (ns : ToCEntry) (ept : String) : String :=
  match ciFind ns.section_id.toList ept.toList with
  | some k => pyStrip (String.mk (ept.toList.take k))
  | none => pyStrip ept

/-- The (zero- or one-element) list of end-page fragments: the code
processes the end page only when a next section exists and
`end_page < len(text_pages)`. -/
def endFragsOf (text_pages : List String) (next_sec : Option ToCEntry)
    (e : Int) : Option (List String) :=
  match next_sec with
  | some ns =>
    if e < (text_pages.length : Int) then
      (pyGet text_pages e).map (fun ept => [endFragTxt ns ept])
    else some []
  | none => some []

/-- `_extract_section_content(text_pages, section, next_section)`.
Returns `none` exactly when the Python code would raise `IndexError`
(possible only for an empty page list). -/
def _extract_section_content (text_pages : List String) (sec : ToCEntry)
    (next_sec : Option ToCEntry) : Option String :=
  (pyGet text_pages (extractStart text_pages sec)).bind (fun page_text =>
    ((intRange (extractStart text_pages sec + 1)
        (extractEnd text_pages next_sec)).mapM
      (fun p => pyGet text_pages p)).bind (fun midTexts =>
      (endFragsOf text_pages next_sec (extractEnd text_pages next_sec)).bind
        (fun endFrags =>
          some (pyStrip (String.intercalate " "
            (startFrag sec page_text ::
              (midTexts.map pyStrip ++ endFrags)))))))

/-- `parse_document_sections`: sort entries by page (Python's `sorted`
is stable, as is `mergeSort`), then extract each entry's content with
the following entry as boundary. -/
def insertByPage (e : ToCEntry) : List ToCEntry → List ToCEntry
  | [] => [e]
  | x :: xs => if e.page ≤ x.page then e :: x :: xs else x :: insertByPage e xs

/-- Python's stable `sorted(toc_entries, key=lambda x: x["page"])`,
implemented as stable insertion sort (stability and the key order
uniquely determine the output, so this agrees with Python's sort). -/
def pySortByPage : List ToCEntry → List ToCEntry
  | [] => []
  | e :: rest => insertByPage e (pySortByPage rest)

def parse_document_sections (text_pages : List String)
    (toc_entries : List ToCEntry) : Option (List PSection) :=
  let sorted := pySortByPage toc_entries
  sorted.enum.mapM (fun pr =>
    (_extract_section_content text_pages pr.2 (sorted.get? (pr.1 + 1))).map
      (fun c => PSection.mk pr.2 c))

/-! ### Reconciliation report -/

/-- A projected row `(section_id, title, page)` of either list. -/
structure RRow where
  sid : String
  title : String
  page : Nat
deriving Repr, DecidableEq

/-- A row of the merged comparison frame; `none` models pandas `NaN`
in the suffixed columns. -/
structure MergedRow where
  section_id : String
  title_toc : Option String
  page_toc : Option Nat
  title_parsed : Option String
  page_parsed : Option Nat
deriving Repr, DecidableEq

/-- Projection `df[["section_id", "title", "page"]]`. -/
def projectRows (l : List ToCEntry) : List RRow :=
  l.map (fun e => RRow.mk e.section_id e.title e.page)

/-- `pd.merge(toc_df, parsed_df, on="section_id", how="outer")`:
per-key cross product for keys on both sides, one-sided rows with
`NaN` (here `none`) otherwise.  Row order is abstracted; the program
only consumes row counts and row contents. -/
def mergeOuter (toc parsed : List RRow) : List MergedRow :=
  (toc.flatMap (fun t =>
    let ms := parsed.filter (fun p => p.sid == t.sid)
    if ms.isEmpty then
      [MergedRow.mk t.sid (some t.title) (some t.page) none none]
    else
      ms.map (fun p =>
        MergedRow.mk t.sid (some t.title) (some t.page) (some p.title)
          (some p.page))))
  ++ ((parsed.filter (fun p => !(toc.any (fun t => t.sid == p.sid)))).map
    (fun p => MergedRow.mk p.sid none none (some p.title) (some p.page)))

/-- A row survives `comparison_df.dropna()` iff no column is `NaN`. -/
def rowComplete (r : MergedRow) : Bool :=
  r.title_toc.isSome && r.page_toc.isSome && r.title_parsed.isSome &&
    r.page_parsed.isSome

/-- The summary counters written to the report's first rows. -/
structure SummaryCounts where
  totalToc : Nat
  totalParsed : Nat
  matched : Nat
  tocOnly : Nat
  parsedOnly : Nat
deriving Repr, DecidableEq

/-- The observable content of `generate_validation_report`: either the
degenerate empty-ToC report (status row plus an empty detailed sheet
with the given columns) or the full summary plus comparison table. -/
inductive VReport where
  | noEntries (status : String) (detailedColumns : List String)
      (detailedRows : List MergedRow)
  | full (counts : SummaryCounts) (comparison : List MergedRow)
deriving Repr, DecidableEq

/-- `generate_validation_report(toc_entries, parsed_sections)` as the
report content it writes. -/
def generate_validation_report (toc_entries : List ToCEntry)
    (parsed_sections : List PSection) : VReport :=
  if toc_entries = [] then
    .noEntries "No TOC entries found" ["section_id", "title", "page"] []
  else
    let comparison :=
      mergeOuter (projectRows toc_entries)
        (projectRows (parsed_sections.map PSection.entry))
    let toc_only := comparison.filter (fun r => r.title_parsed.isNone)
    let parsed_only := comparison.filter (fun r => r.title_toc.isNone)
    .full
      (SummaryCounts.mk toc_entries.length parsed_sections.length
        (comparison.filter rowComplete).length toc_only.length
        parsed_only.length)
      comparison

/-! ### Claim-side formulations (following the spec's wording, for
comparison against the embedded code) -/

/-- Spec step 1: `start_page = entry.page − 1`, clamped into
`[0, pageCount − 1]`. -/
def specStartPage (pages : List String) (sec : ToCEntry) : Int :=
  max 0 (min ((sec.page : Int) - 1) ((pages.length : Int) - 1))

/-- Spec step 2: `end_page = next_entry.page − 1` if a next entry
exists, else the page count. -/
def specEndPage (pages : List String) (next : Option ToCEntry) : Int :=
  match next with
  | some ns => (ns.page : Int) - 1
  | none => (pages.length : Int)

/-- Spec step 3: the start-page text after the end of the first
case-insensitive occurrence of the entry's `section_id` (the whole
start-page text if no occurrence). -/
def specStartFragment (pages : List String) (sec : ToCEntry) : String :=
  match ciFind sec.section_id.toList
      (pages.getD (specStartPage pages sec).toNat "").toList with
  | some k =>
    String.mk ((pages.getD (specStartPage pages sec).toNat "").toList.drop
      (k + sec.section_id.toList.length))
  | none => pages.getD (specStartPage pages sec).toNat ""

/-- Spec step 4: the full text of every page of the document strictly
between `start_page` and `end_page`, in page order. -/
def specMiddleFragments (pages : List String) (s e : Int) : List String :=
  ((List.range pages.length).filter
    (fun (i : Nat) => decide (s < (i : Int) ∧ (i : Int) < e))).map
    (fun i => pages.getD i "")

/-- Spec step 5: the end-page text before the first case-insensitive
occurrence of the next entry's `section_id` (the whole end-page text if
no occurrence). -/
def specEndFragment (pages : List String) (ns : ToCEntry) (e : Int) : String :=
  match ciFind ns.section_id.toList (pages.getD e.toNat "").toList with
  | some k => String.mk ((pages.getD e.toNat "").toList.take k)
  | none => pages.getD e.toNat ""

/-- The fragment list described by the claim: (a) the start-page
fragment, (b) the middle pages, (c) the end-page fragment when a next
entry exists and `end_page` is a valid page index. -/
def claimFragments (pages : List String) (sec : ToCEntry)
    (next : Option ToCEntry) : List String :=
  [specStartFragment pages sec] ++
    specMiddleFragments pages (specStartPage pages sec)
      (specEndPage pages next) ++
    (match next with
      | some ns =>
        if 0 ≤ specEndPage pages next ∧
            specEndPage pages next < (pages.length : Int) then
          [specEndFragment pages ns (specEndPage pages next)]
        else []
      | none => [])

/-- Claim C1 exactly as stated: the fragments joined with a single
space and trimmed. -/
def claimContent (pages : List String) (sec : ToCEntry)
    (next : Option ToCEntry) : String :=
  pyStrip (String.intercalate " " (claimFragments pages sec next))

/-- Claim C1 amended: each fragment is additionally trimmed before
joining (this is what the code does with `.strip()` on every part). -/
def claimContentTrimmed (pages : List String) (sec : ToCEntry)
    (next : Option ToCEntry) : String :=
  pyStrip (String.intercalate " " ((claimFragments pages sec next).map pyStrip))

/-- Claim C2 as stated: extraction in which the end-page step is
skipped whenever `end_page = start_page` (the "degenerate window"
resolution the spec asserts). -/
def claimExtractSkipShared (pages : List String) (sec : ToCEntry)
    (next : Option ToCEntry) : String :=
  let s := specStartPage pages sec
  let e := min (specEndPage pages next) (pages.length : Int)
  let ends : List String :=
    match next with
    | some ns =>
      if e < (pages.length : Int) ∧ e ≠ s then
        [pyStrip (specEndFragment pages ns e)]
      else []
    | none => []
  pyStrip (String.intercalate " "
    (pyStrip (specStartFragment pages sec) ::
      ((specMiddleFragments pages s e).map pyStrip ++ ends)))

/-! ### Helper lemmas -/

theorem head?_dropWhile_not {α : Type} (p : α → Bool) (l : List α) (a : α)
    (h : (l.dropWhile p).head? = some a) : p a = false := by
  induction l with
  | nil => simp [List.dropWhile] at h
  | cons b t ih =>
    by_cases hb : p b
    · rw [List.dropWhile_cons, if_pos hb] at h
      exact ih h
    · rw [List.dropWhile_cons, if_neg hb] at h
      simp only [List.head?_cons, Option.some.injEq] at h
      subst h
      simpa using hb

theorem dropWhile_eq_self_of {α : Type} (p : α → Bool) (l : List α)
    (h : ∀ a, l.head? = some a → p a = false) : l.dropWhile p = l := by
  cases l with
  | nil => rfl
  | cons b t => rw [List.dropWhile_cons, if_neg (by simp [h b rfl])]

theorem getLast?_dropWhile {α : Type} (p : α → Bool) (l : List α)
    (h : l.dropWhile p ≠ []) : (l.dropWhile p).getLast? = l.getLast? := by
  induction l with
  | nil => simp at h
  | cons b t ih =>
    by_cases hb : p b
    · rw [List.dropWhile_cons, if_pos hb] at h ⊢
      have ht : t ≠ [] := by rintro rfl; simp [List.dropWhile] at h
      rw [ih h]
      cases t with
      | nil => exact absurd rfl ht
      | cons c u => rw [List.getLast?_cons_cons]
    · rw [List.dropWhile_cons, if_neg hb]

theorem pyStripList_idem (s : List Char) :
    pyStripList (pyStripList s) = pyStripList s := by
  unfold pyStripList
  by_cases hun : (s.dropWhile isPySpace).reverse.dropWhile isPySpace = []
  · rw [hun]
    rfl
  · have h1 : ((s.dropWhile isPySpace).reverse.dropWhile isPySpace).reverse.dropWhile
        isPySpace = ((s.dropWhile isPySpace).reverse.dropWhile isPySpace).reverse := by
      apply dropWhile_eq_self_of
      intro a ha
      rw [List.head?_reverse, getLast?_dropWhile _ _ hun, List.getLast?_reverse] at ha
      exact head?_dropWhile_not _ _ _ ha
    rw [h1, List.reverse_reverse,
      dropWhile_eq_self_of _ _ (fun a ha => head?_dropWhile_not _ _ _ ha)]

theorem pyStrip_idem (x : String) : pyStrip (pyStrip x) = pyStrip x := by
  unfold pyStrip
  rw [show (String.mk (pyStripList x.toList)).toList = pyStripList x.toList from rfl,
    pyStripList_idem]

theorem mapM_eq_some_map {α β : Type} (f : α → Option β) (g : α → β)
    (l : List α) (h : ∀ x ∈ l, f x = some (g x)) :
    l.mapM f = some (l.map g) := by
  induction l with
  | nil => rfl
  | cons a t ih =>
    rw [List.mapM_cons, h a (by simp), ih (fun x hx => h x (by simp [hx]))]
    rfl

theorem pyGet_nonneg (l : List String) (i : Int) (h0 : 0 ≤ i)
    (h1 : i < l.length) : pyGet l i = some (l.getD i.toNat "") := by
  unfold pyGet
  rw [if_pos h0]
  cases hg : l.get? i.toNat with
  | none => rw [List.get?_eq_none] at hg; omega
  | some v =>
    rw [List.getD_eq_getElem?_getD, ← List.get?_eq_getElem?, hg]
    rfl

theorem pyGet_isSome (l : List String) (i : Int)
    (h0 : -(l.length : Int) ≤ i) (h1 : i < l.length) :
    (pyGet l i).isSome := by
  unfold pyGet
  by_cases hp : 0 ≤ i
  · rw [if_pos hp]
    cases hg : l.get? i.toNat with
    | none => rw [List.get?_eq_none] at hg; omega
    | some v => rfl
  · rw [if_neg hp, if_pos (by omega)]
    cases hg : l.get? (i + l.length).toNat with
    | none => rw [List.get?_eq_none] at hg; omega
    | some v => rfl

/-! ### Claim C9 -/

/-- **C9** (confirmed): when the ToC entry list is empty,
`generate_validation_report` produces the minimal report — the literal
"No TOC entries found" status and an empty detailed table with columns
`section_id`, `title`, `page` — without performing the join and
without error (the function returns normally for every parsed list). -/
theorem c9_empty_toc_minimal_report (parsed : List PSection) :
    generate_validation_report [] parsed =
      .noEntries "No TOC entries found" ["section_id", "title", "page"] [] :=
  rfl

/-! ### Claim C5 -/

/-- **C5** counterexample: the accepted line `"1     2"` (section id
`1`, five spaces, page `2`) produces an entry whose title is the empty
string — the regex title group `[^\.]{3,}` matched three spaces, and
stripping left nothing — so the recognized title is *not* non-empty as
the claim states. -/
theorem c5_counterexample :
    (parse_toc_entry "1     2" "doc").map ToCEntry.title = some "" ∧
    ¬ ("" : String) ≠ "" := by
  exact ⟨by decide, by simp⟩

/-- **C5** amended: for every line the recognizer accepts, the entry's
title equals its own trimmed form (no leading or trailing whitespace);
it need not be non-empty (it is empty exactly when the matched title
group was all whitespace, as in the counterexample). -/
theorem c5_title_trimmed (line d : String) (e : ToCEntry)
    (h : parse_toc_entry line d = some e) : e.title = pyStrip e.title := by
  unfold parse_toc_entry at h
  cases hm : reMatch tocRE (pyStrip line).toList with
  | none => rw [hm] at h; exact absurd h (by simp)
  | some m =>
    rw [hm] at h
    simp only [Option.some.injEq] at h
    subst h
    exact (pyStrip_idem _).symm

/-- **C5** witness: the amended theorem applied to the concrete
accepted line `"2.1 Overview of stuff 5"`. -/
theorem c5_title_trimmed_witness :
    ("Overview of stuff" : String) = pyStrip "Overview of stuff" :=
  c5_title_trimmed "2.1 Overview of stuff 5" "d"
    ⟨"d", "2.1", "Overview of stuff", 5, 2, some "2", "2.1 Overview of stuff", []⟩
    (by decide)

/-! ### Claim C6 -/

/-- **C6** (confirmed): for every recognized entry, if the section id
matches `digits(.digits)*` exactly, the level is the number of
dot-separated components and the parent id is the join of all
components but the last (absent when there is only one component);
otherwise the level is 1 and the parent id is absent. -/
theorem c6_hierarchy (line d : String) (e : ToCEntry)
    (h : parse_toc_entry line d = some e) :
    ((reMatch numRE e.section_id.toList).isSome →
      e.level = (pySplit '.' e.section_id).length ∧
      e.parent_id = (if 1 < (pySplit '.' e.section_id).length then
          some (String.intercalate "." (pySplit '.' e.section_id).dropLast)
        else none)) ∧
    ((reMatch numRE e.section_id.toList).isSome = false →
      e.level = 1 ∧ e.parent_id = none) := by
  unfold parse_toc_entry at h
  cases hm : reMatch tocRE (pyStrip line).toList with
  | none => rw [hm] at h; exact absurd h (by simp)
  | some m =>
    rw [hm] at h
    simp only [Option.some.injEq] at h
    subst h
    unfold mkEntry hierOf
    dsimp only
    by_cases hnum :
        (reMatch numRE (pyStrip (groupStr (pyStrip line).toList m.2 1)).toList).isSome
    · rw [if_pos hnum]
      refine ⟨fun _ => ⟨rfl, ?_⟩, fun hf => absurd (hf ▸ hnum) (by decide)⟩
      by_cases hl : 1 <
          (pySplit '.' (pyStrip (groupStr (pyStrip line).toList m.2 1))).length
      · rw [if_pos hl]
      · rw [if_neg hl]
    · rw [if_neg hnum]
      exact ⟨fun ht => absurd ht hnum, fun _ => ⟨rfl, rfl⟩⟩

/-- **C6** witness: the theorem applied to the concrete accepted line
`"3.4.2 Power Rules 99"` (numeric id, three components, parent
`"3.4"`). -/
theorem c6_hierarchy_witness :
    ((reMatch numRE ("3.4.2" : String).toList).isSome →
      3 = (pySplit '.' ("3.4.2" : String)).length ∧
      some "3.4" = (if 1 < (pySplit '.' ("3.4.2" : String)).length then
          some (String.intercalate "." (pySplit '.' ("3.4.2" : String)).dropLast)
        else none)) ∧
    ((reMatch numRE ("3.4.2" : String).toList).isSome = false →
      3 = 1 ∧ some "3.4" = none) :=
  c6_hierarchy "3.4.2 Power Rules 99" "d"
    ⟨"d", "3.4.2", "Power Rules", 99, 3, some "3.4", "3.4.2 Power Rules", []⟩
    (by decide)

/-! ### Claim C4 -/

/-- **C4** counterexample: the accepted line `"1 see figure 12 x 5"`
has title `"see figure 12 x"`, which contains the word `figure`
followed by a number in lower case.  The claim says the tag should be
`"figure"` whenever the substring `Figure` appears *in any letter
case*, but the code's membership test `"Figure" in title` is
case-sensitive, so the entry is tagged `"table"` instead. -/
theorem c4_counterexample :
    (parse_toc_entry "1 see figure 12 x 5" "doc").map ToCEntry.tags =
      some ["table"] ∧
    (parse_toc_entry "1 see figure 12 x 5" "doc").map ToCEntry.title =
      some "see figure 12 x" ∧
    (ciFind "Figure".toList "see figure 12 x".toList).isSome = true ∧
    (["table"] : List String) ≠ ["figure"] := by
  refine ⟨by decide, by decide, by decide, by decide⟩

/-- **C4** amended: for every recognized title, at most one tag is
attached — when the `Figure|Table`-followed-by-a-number pattern occurs
(case-insensitively), exactly the tag `"figure"` if the *exact-case*
literal substring `"Figure"` appears in the title and `"table"`
otherwise; when the pattern does not occur, the tag list is empty. -/
theorem c4_tags (line d : String) (e : ToCEntry)
    (h : parse_toc_entry line d = some e) :
    e.tags = (if figTabFound e.title then
        [if containsSub "Figure".toList e.title.toList then "figure"
          else "table"]
      else []) := by
  unfold parse_toc_entry at h
  cases hm : reMatch tocRE (pyStrip line).toList with
  | none => rw [hm] at h; exact absurd h (by simp)
  | some m =>
    rw [hm] at h
    simp only [Option.some.injEq] at h
    subst h
    rfl

/-- **C4** witness: the theorem applied to the concrete accepted line
`"1 See Figure 12 here 7"`, whose title carries the exact-case
substring `"Figure"` and is tagged `["figure"]`. -/
theorem c4_tags_witness :
    (["figure"] : List String) =
      (if figTabFound ("See Figure 12 here" : String) then
        [if containsSub "Figure".toList ("See Figure 12 here" : String).toList
          then "figure" else "table"]
      else []) :=
  c4_tags "1 See Figure 12 here 7" "d"
    ⟨"d", "1", "See Figure 12 here", 7, 1, none, "1 See Figure 12 here",
      ["figure"]⟩
    (by decide)

/-! ### Claim C7 -/

/-- The scan retains nothing iff no line of any page matches the entry
pattern (after stripping). -/
theorem tocScan_eq_nil_iff (pages : List String) :
    tocScan pages = [] ↔
      ∀ text ∈ pages, ∀ line ∈ splitLines text,
        reMatch tocRE (pyStrip line).toList = none := by
  unfold tocScan
  rw [List.flatMap_eq_nil_iff]
  constructor
  · intro h text htext line hline
    obtain ⟨i, hi⟩ := List.mem_iff_getElem?.mp htext
    have hpr : (i, text) ∈ pages.enum := List.mem_enum_iff_getElem?.mpr hi
    have h1 := h (i, text) hpr
    rw [List.filterMap_eq_nil_iff] at h1
    have h2 := h1 line hline
    by_cases hm : (reMatch tocRE (pyStrip line).toList).isSome
    · rw [if_pos hm] at h2; exact absurd h2 (by simp)
    · simpa using hm
  · intro h pr hpr
    rw [List.filterMap_eq_nil_iff]
    intro line hline
    have hmem : pr.2 ∈ pages := by
      have h3 := List.mem_enum_iff_getElem?.mp hpr
      exact List.mem_iff_getElem?.mpr ⟨pr.1, h3⟩
    rw [h pr.2 hmem line hline]
    rfl

/-- **C7** (confirmed): `find_toc_content` signals the document-level
error iff zero lines across the whole page sequence are accepted by
the entry pattern; with at least one accepted line it returns the
retained `(page_index, line)` pairs without error. -/
theorem c7_structural_error_iff (pages : List String) :
    ((∃ msg, find_toc_content pages = .error msg) ↔
      ∀ text ∈ pages, ∀ line ∈ splitLines text,
        reMatch tocRE (pyStrip line).toList = none) ∧
    (∀ r, find_toc_content pages = .ok r → r = tocScan pages ∧ r ≠ []) := by
  unfold find_toc_content
  by_cases hscan : tocScan pages = []
  · rw [if_pos hscan]
    refine ⟨⟨fun _ => (tocScan_eq_nil_iff pages).mp hscan, fun _ => ⟨_, rfl⟩⟩,
      fun r hr => absurd hr (by simp)⟩
  · rw [if_neg hscan]
    refine ⟨⟨fun hx => absurd hx (by simp), fun hall =>
      absurd ((tocScan_eq_nil_iff pages).mpr hall) hscan⟩, fun r hr => ?_⟩
    simp only [Except.ok.injEq] at hr
    exact ⟨hr.symm, hr ▸ hscan⟩

/-- **C7** witness: a one-page document with one accepted line is
returned as `.ok` with exactly the retained pair. -/
theorem c7_structural_error_iff_witness :
    find_toc_content ["3 Overview bla bla 1\nrandom text"] =
      .ok [(0, "3 Overview bla bla 1")] ∧
    ([(0, "3 Overview bla bla 1")] : List (Nat × String)) =
      tocScan ["3 Overview bla bla 1\nrandom text"] ∧
    ([(0, "3 Overview bla bla 1")] : List (Nat × String)) ≠ [] := by
  refine ⟨by rfl, ?_⟩
  exact (c7_structural_error_iff ["3 Overview bla bla 1\nrandom text"]).2
    [(0, "3 Overview bla bla 1")] (by rfl)

/-! ### Claim C10 -/

/-- Every index retained by the scan is a valid page index. -/
theorem tocScan_fst_lt (pages : List String) (pr : Nat × String)
    (h : pr ∈ tocScan pages) : pr.1 < pages.length := by
  unfold tocScan at h
  rw [List.mem_flatMap] at h
  obtain ⟨a, ha, hpr⟩ := h
  rw [List.mem_filterMap] at hpr
  obtain ⟨line, hline, hsome⟩ := hpr
  have h1 : pr.1 = a.1 := by
    by_cases hm : (reMatch tocRE (pyStrip line).toList).isSome
    · rw [if_pos hm] at hsome
      cases hsome
      rfl
    · rw [if_neg hm] at hsome
      cases hsome
  rw [h1]
  have h2 := List.mem_enum_iff_getElem?.mp ha
  exact (List.getElem?_eq_some_iff.mp h2).1

/-- **C10** (confirmed): every entry the assembler produces from an
`n`-page document has `1 ≤ page ≤ n`, so the extractor's clamp of
`start_page` into `[0, n − 1]` never changes the value
`page − 1`. -/
theorem c10_page_bounds (pages : List String) (tl : List (Nat × String))
    (d : String) (h : find_toc_content pages = .ok tl) :
    ∀ e ∈ parse_toc_entries tl d,
      1 ≤ e.page ∧ e.page ≤ pages.length ∧
      max 0 (min ((e.page : Int) - 1) ((pages.length : Int) - 1)) =
        (e.page : Int) - 1 := by
  intro e he
  unfold find_toc_content at h
  by_cases hscan : tocScan pages = []
  · rw [if_pos hscan] at h
    exact absurd h (by simp)
  · rw [if_neg hscan] at h
    simp only [Except.ok.injEq] at h
    subst h
    unfold parse_toc_entries at he
    rw [List.mem_filterMap] at he
    obtain ⟨pr, hpr, hmap⟩ := he
    have hlt := tocScan_fst_lt pages pr hpr
    cases hp : parse_toc_entry pr.2 d with
    | none => rw [hp] at hmap; cases hmap
    | some e0 =>
      rw [hp] at hmap
      simp only [Option.map_some', Option.some.injEq] at hmap
      subst hmap
      refine ⟨by simp, ?_, ?_⟩
      · simpa using hlt
      · simp only []
        omega

/-- The concrete assembler output used by the C10 witness. -/
def eC10 : ToCEntry :=
  ⟨"d", "3", "Overview bla bla", 1, 1, none, "3 Overview bla bla", []⟩

/-- **C10** witness: the theorem applied to the one-page document
`["3 Overview bla bla 1"]` and its single produced entry. -/
theorem c10_page_bounds_witness :
    1 ≤ eC10.page ∧
    eC10.page ≤ (["3 Overview bla bla 1"] : List String).length ∧
    max 0 (min ((eC10.page : Int) - 1)
      (((["3 Overview bla bla 1"] : List String).length : Int) - 1)) =
      (eC10.page : Int) - 1 :=
  c10_page_bounds ["3 Overview bla bla 1"] [(0, "3 Overview bla bla 1")] "d"
    (by rfl) eC10 (by decide)

/-! ### Claim C8 -/

theorem mem_intRange {a b p : Int} (h : p ∈ intRange a b) :
    a ≤ p ∧ p < b := by
  unfold intRange at h
  rw [List.mem_map] at h
  obtain ⟨k, hk, hkp⟩ := h
  rw [List.mem_range] at hk
  omega

/-- **C8** (confirmed): on a non-empty page sequence, section
extraction never fails, for any entry and any optional next entry: a
missing heading only selects the whole-page fallback, and the result
is always a string (the model's `none`, the image of a Python
`IndexError`, is impossible). -/
theorem c8_extraction_total (pages : List String) (sec : ToCEntry)
    (next : Option ToCEntry) (h : pages ≠ []) :
    ∃ s, _extract_section_content pages sec next = some s := by
  have hn : 0 < pages.length := List.length_pos.mpr h
  unfold _extract_section_content
  rw [pyGet_nonneg pages (extractStart pages sec)
    (by unfold extractStart; omega) (by unfold extractStart; omega)]
  rw [mapM_eq_some_map (fun p => pyGet pages p)
    (fun p => pages.getD p.toNat "") _
    (fun p hp => by
      have hb := mem_intRange hp
      unfold extractStart at hb
      unfold extractEnd at hb
      refine pyGet_nonneg pages p (by omega) ?_
      rcases next with _ | ns <;> simp at hb <;> omega)]
  have he : ∃ l, endFragsOf pages next (extractEnd pages next) = some l := by
    unfold endFragsOf
    cases next with
    | none => exact ⟨[], rfl⟩
    | some ns =>
      dsimp only
      by_cases hlt : extractEnd pages (some ns) < (pages.length : Int)
      · rw [if_pos hlt]
        have hs := pyGet_isSome pages (extractEnd pages (some ns))
          (by unfold extractEnd; dsimp only; omega) hlt
        obtain ⟨v, hv⟩ := Option.isSome_iff_exists.mp hs
        rw [hv]
        exact ⟨_, rfl⟩
      · rw [if_neg hlt]
        exact ⟨[], rfl⟩
  obtain ⟨l, hl⟩ := he
  rw [hl]
  exact ⟨_, rfl⟩

/-- **C8** witness: the theorem applied to a concrete one-page
document whose heading is absent from the page. -/
theorem c8_extraction_total_witness :
    (["some page text"] : List String) ≠ [] ∧
    ∃ s, _extract_section_content ["some page text"]
      ⟨"d", "9", "Title here", 1, 1, none, "9 Title here", []⟩ none = some s :=
  ⟨by decide, c8_extraction_total ["some page text"]
    ⟨"d", "9", "Title here", 1, 1, none, "9 Title here", []⟩ none (by decide)⟩

/-! ### Claim C3 -/

/-- The summary of a full report, for stating counterexamples. -/
def reportCounts : VReport → Option SummaryCounts
  | .full c _ => some c
  | .noEntries _ _ _ => none

/-- A fully matched comparison row. -/
def fullRowOf (t : RRow) : MergedRow :=
  ⟨t.sid, some t.title, some t.page, some t.title, some t.page⟩

/-- **C3** counterexample: two identical lists that both contain the
same section id twice.  The outer join's per-key cross product yields
4 complete rows, so the matched count is 4, not the total entry count
2 — the claim fails without a uniqueness precondition (ToC-only and
parsed-only are still 0). -/
theorem c3_counterexample :
    reportCounts (generate_validation_report
      [⟨"d", "1", "Intro here", 1, 1, none, "1 Intro here", []⟩,
        ⟨"d", "1", "Intro here", 1, 1, none, "1 Intro here", []⟩]
      [⟨⟨"d", "1", "Intro here", 1, 1, none, "1 Intro here", []⟩, "c"⟩,
        ⟨⟨"d", "1", "Intro here", 1, 1, none, "1 Intro here", []⟩, "c"⟩]) =
      some ⟨2, 2, 4, 0, 0⟩ ∧ (4 : Nat) ≠ 2 :=
  ⟨by decide, by decide⟩

/-- With pairwise-distinct keys, filtering a list for one member's key
returns exactly that member. -/
theorem filter_sid_eq_singleton (l : List RRow)
    (hnd : (l.map RRow.sid).Nodup) (x : RRow) (hx : x ∈ l) :
    l.filter (fun p => p.sid == x.sid) = [x] := by
  induction l with
  | nil => cases hx
  | cons a t ih =>
    rw [List.map_cons, List.nodup_cons] at hnd
    rcases List.mem_cons.mp hx with rfl | hxt
    · rw [List.filter_cons, if_pos (by simp)]
      have ht : t.filter (fun p => p.sid == x.sid) = [] := by
        rw [List.filter_eq_nil_iff]
        intro b hb
        simp only [beq_iff_eq]
        intro hbs
        exact hnd.1 (hbs ▸ List.mem_map_of_mem RRow.sid hb)
      rw [ht]
    · rw [List.filter_cons, if_neg ?_, ih hnd.2 hxt]
      simp only [beq_iff_eq]
      intro has
      exact hnd.1 (has ▸ List.mem_map_of_mem RRow.sid hxt)

/-- Every parsed-side row finds its key on the ToC side when both
sides carry the same rows, so the right-only part of the join is
empty. -/
theorem parsed_only_nil (l : List RRow) :
    l.filter (fun p => !(l.any (fun t => t.sid == p.sid))) = [] := by
  rw [List.filter_eq_nil_iff]
  intro p hp
  simp only [Bool.not_eq_true']
  intro hfalse
  rw [List.any_eq_false] at hfalse
  exact hfalse p hp (by simp)

theorem flatMap_eq_map_of_singleton {α β : Type} (f : α → List β) (g : α → β)
    (l : List α) (h : ∀ x ∈ l, f x = [g x]) : l.flatMap f = l.map g := by
  induction l with
  | nil => rfl
  | cons a t ih =>
    rw [List.flatMap_cons, h a (by simp),
      ih (fun x hx => h x (by simp [hx])), List.singleton_append]
    rfl

/-- The outer join of a list of rows with itself, under pairwise
distinct keys, is one complete row per input row. -/
theorem mergeOuter_self (l : List RRow) (hnd : (l.map RRow.sid).Nodup) :
    mergeOuter l l = l.map fullRowOf := by
  unfold mergeOuter
  rw [parsed_only_nil, List.map_nil, List.append_nil]
  apply flatMap_eq_map_of_singleton
  intro x hx
  rw [filter_sid_eq_singleton l hnd x hx]
  rfl

/-- **C3** amended: reconciliation of two identical non-empty lists
(same ids, titles and pages) yields zero ToC-only rows, zero
parsed-only rows and a matched count equal to the total number of
entries, *provided the section ids are pairwise distinct*; with
duplicated ids the join's cross product inflates the matched count
(see the counterexample). -/
theorem c3_identical_reconcile (toc : List ToCEntry) (parsed : List PSection)
    (hproj : projectRows (parsed.map PSection.entry) = projectRows toc)
    (hnd : (toc.map ToCEntry.section_id).Nodup)
    (hne : toc ≠ []) :
    generate_validation_report toc parsed =
      .full ⟨toc.length, parsed.length, toc.length, 0, 0⟩
        ((projectRows toc).map fullRowOf) := by
  unfold generate_validation_report
  rw [if_neg hne, hproj]
  have hnd' : ((projectRows toc).map RRow.sid).Nodup := by
    unfold projectRows
    rw [List.map_map]
    exact hnd
  rw [mergeOuter_self _ hnd']
  have h1 : ((projectRows toc).map fullRowOf).filter
      (fun r => r.title_parsed.isNone) = [] := by
    rw [List.filter_eq_nil_iff]
    intro r hr
    rw [List.mem_map] at hr
    obtain ⟨t, _, rfl⟩ := hr
    simp [fullRowOf]
  have h2 : ((projectRows toc).map fullRowOf).filter
      (fun r => r.title_toc.isNone) = [] := by
    rw [List.filter_eq_nil_iff]
    intro r hr
    rw [List.mem_map] at hr
    obtain ⟨t, _, rfl⟩ := hr
    simp [fullRowOf]
  have h3 : ((projectRows toc).map fullRowOf).filter rowComplete =
      (projectRows toc).map fullRowOf := by
    rw [List.filter_eq_self]
    intro r hr
    rw [List.mem_map] at hr
    obtain ⟨t, _, rfl⟩ := hr
    simp [fullRowOf, rowComplete]
  simp only [h1, h2, h3, List.length_nil]
  unfold projectRows
  simp

/-- **C3** witness: two identical two-entry lists with distinct ids
reconcile to matched = 2 = total, no one-sided rows. -/
theorem c3_identical_reconcile_witness :
    generate_validation_report
      [⟨"d", "1", "Intro here", 1, 1, none, "1 Intro here", []⟩,
        ⟨"d", "2", "More here", 2, 1, none, "2 More here", []⟩]
      [⟨⟨"d", "1", "Intro here", 1, 1, none, "1 Intro here", []⟩, "x"⟩,
        ⟨⟨"d", "2", "More here", 2, 1, none, "2 More here", []⟩, "y"⟩] =
      .full ⟨2, 2, 2, 0, 0⟩
        ((projectRows
          [⟨"d", "1", "Intro here", 1, 1, none, "1 Intro here", []⟩,
            ⟨"d", "2", "More here", 2, 1, none, "2 More here", []⟩]).map
          fullRowOf) :=
  c3_identical_reconcile _ _ (by decide) (by decide) (by decide)

/-! ### Claim C1 -/

/-- **C1** counterexample: the claim joins the *raw* fragments with a
single space and trims only the ends, but the code strips every
fragment before joining.  With pages `["A\n", "B"]` and a single entry
whose heading does not occur, the code returns `"A B"` while the
claimed formula gives `"A\n B"`. -/
theorem c1_counterexample :
    parse_document_sections ["A\n", "B"]
      [⟨"d", "5", "Results here", 1, 1, none, "5 Results here", []⟩] =
      some [⟨⟨"d", "5", "Results here", 1, 1, none, "5 Results here", []⟩,
        "A B"⟩] ∧
    claimContent ["A\n", "B"]
      ⟨"d", "5", "Results here", 1, 1, none, "5 Results here", []⟩ none =
      "A\n B" ∧
    ("A B" : String) ≠ "A\n B" :=
  ⟨by decide, by decide, by decide⟩

theorem range_filter_lt (n b : Nat) :
    (List.range n).filter (fun i => decide (i < b)) = List.range (min b n) := by
  induction n with
  | zero => simp
  | succ m ih =>
    rw [List.range_succ, List.filter_append, ih]
    by_cases hb : m < b
    · rw [show min b (m + 1) = m + 1 by omega, show min b m = m by omega,
        List.range_succ]
      simp [hb]
    · rw [show min b (m + 1) = min b m by omega]
      simp [hb]

theorem range_filter_gt (b a : Nat) :
    (List.range b).filter (fun i => decide (a < i)) =
      (List.range (b - (a + 1))).map (fun k => a + 1 + k) := by
  induction b with
  | zero => simp
  | succ m ih =>
    rw [List.range_succ, List.filter_append, ih]
    by_cases ha : a < m
    · rw [show m + 1 - (a + 1) = (m - (a + 1)) + 1 by omega, List.range_succ,
        List.map_append]
      simp only [List.map_cons, List.map_nil]
      rw [show a + 1 + (m - (a + 1)) = m by omega]
      simp [ha]
    · rw [show m + 1 - (a + 1) = m - (a + 1) by omega]
      simp [ha]

theorem range_filter_window (n a b : Nat) :
    (List.range n).filter (fun i => decide (a < i) && decide (i < b)) =
      (List.range (min b n - (a + 1))).map (fun k => a + 1 + k) := by
  rw [← List.filter_filter, range_filter_lt, range_filter_gt]

/-- The pages strictly between `S` and `E0` (the spec's reading) are
exactly the pages the code walks with `range(start_page + 1,
end_page)` after the clamp of the upper bound. -/
theorem specMiddle_eq_code (pages : List String) (S E0 : Int)
    (hS : 0 ≤ S) (hE : 0 ≤ E0) :
    specMiddleFragments pages S E0 =
      (intRange (S + 1) (min E0 (pages.length : Int))).map
        (fun p => pages.getD p.toNat "") := by
  unfold specMiddleFragments intRange
  rw [List.filter_congr (l := List.range pages.length)
    (q := fun i => decide (S.toNat < i) && decide (i < E0.toNat))
    (fun i _ => by
      show decide (S < (i : Int) ∧ (i : Int) < E0) =
        (decide (S.toNat < i) && decide (i < E0.toNat))
      rw [← Bool.decide_and]
      exact decide_eq_decide.mpr (by omega))]
  rw [range_filter_window]
  rw [List.map_map, List.map_map]
  rw [show (min E0 (pages.length : Int) - (S + 1)).toNat =
    min E0.toNat pages.length - (S.toNat + 1) by omega]
  apply List.map_congr_left
  intro k _
  simp only [Function.comp]
  rw [show (S + 1 + (k : Int)).toNat = S.toNat + 1 + k by omega]

/-- The code's start-page fragment is the stripped form of the spec's
start-page fragment (same page, same heading search). -/
theorem startFrag_eq_spec (pages : List String) (sec : ToCEntry) :
    startFrag sec (pages.getD (extractStart pages sec).toNat "") =
      pyStrip (specStartFragment pages sec) := by
  unfold startFrag specStartFragment specStartPage extractStart
  cases h : ciFind sec.section_id.toList
      (pages.getD (max 0 (min ((sec.page : Int) - 1)
        ((pages.length : Int) - 1))).toNat "").toList with
  | none => rfl
  | some k => rfl

/-- The code's end-page fragment is the stripped form of the spec's
end-page fragment. -/
theorem endFrag_eq_spec (pages : List String) (ns : ToCEntry) (e : Int) :
    endFragTxt ns (pages.getD e.toNat "") =
      pyStrip (specEndFragment pages ns e) := by
  unfold endFragTxt specEndFragment
  cases h : ciFind ns.section_id.toList (pages.getD e.toNat "").toList with
  | none => rfl
  | some k => rfl

/-- **C1** amended: for every entry/next-entry window over a non-empty
page sequence (next entries carrying a 1-based page, as the assembler
guarantees), the extracted content is the claimed fragments — start
fragment, middle pages, conditional end fragment — *each trimmed
individually* and then joined with single spaces and trimmed. -/
theorem c1_content_formula (pages : List String) (sec : ToCEntry)
    (next : Option ToCEntry) (hne : pages ≠ [])
    (hnp : ∀ ns ∈ next, 1 ≤ ns.page) :
    _extract_section_content pages sec next =
      some (claimContentTrimmed pages sec next) := by
  have hn : 0 < pages.length := List.length_pos.mpr hne
  have hS0 : 0 ≤ extractStart pages sec := by unfold extractStart; omega
  have hSn : extractStart pages sec < pages.length := by
    unfold extractStart; omega
  have hSS : specStartPage pages sec = extractStart pages sec := rfl
  have hE0 : 0 ≤ specEndPage pages next := by
    unfold specEndPage
    cases next with
    | none => dsimp only; omega
    | some ns =>
      dsimp only
      have := hnp ns (by simp)
      omega
  have hEmin : extractEnd pages next =
      min (specEndPage pages next) (pages.length : Int) := by
    unfold extractEnd specEndPage
    cases next <;> rfl
  unfold _extract_section_content
  rw [pyGet_nonneg pages _ hS0 (by omega)]
  rw [mapM_eq_some_map (fun p => pyGet pages p)
    (fun p => pages.getD p.toNat "") _
    (fun p hp => by
      have hb := mem_intRange hp
      rw [hEmin] at hb
      exact pyGet_nonneg pages p (by omega) (by omega))]
  simp only [Option.some_bind]
  unfold claimContentTrimmed claimFragments
  rw [List.map_append, List.map_append]
  rw [specMiddle_eq_code pages _ _ (hSS ▸ hS0) hE0]
  rw [hSS, ← hEmin]
  cases next with
  | none =>
    unfold endFragsOf
    dsimp only
    simp only [Option.some_bind, List.map_nil, List.append_nil]
    rw [startFrag_eq_spec pages sec]
    rfl
  | some ns =>
    unfold endFragsOf
    dsimp only
    by_cases hlt : extractEnd pages (some ns) < (pages.length : Int)
    · have hEeq : extractEnd pages (some ns) = specEndPage pages (some ns) := by
        rw [hEmin] at hlt ⊢
        omega
      rw [if_pos hlt]
      rw [pyGet_nonneg pages _ (by omega) hlt]
      simp only [Option.map_some', Option.some_bind]
      rw [if_pos ⟨hE0, by rw [← hEeq]; exact hlt⟩]
      rw [hEeq, endFrag_eq_spec pages ns, startFrag_eq_spec pages sec]
      rfl
    · rw [if_neg hlt]
      simp only [Option.some_bind]
      rw [if_neg (by rw [hEmin] at hlt; omega)]
      simp only [List.map_nil, List.append_nil]
      rw [startFrag_eq_spec pages sec]
      rfl

/-- Concrete entries on one shared page, used by the C1/C2 witnesses
and the C2 counterexample. -/
def entA : ToCEntry := ⟨"d", "1", "aaa bbb", 1, 1, none, "1 aaa bbb", []⟩

/-- Second concrete entry on the same page as `entA`. -/
def entB : ToCEntry := ⟨"d", "2", "ccc ddd", 1, 1, none, "2 ccc ddd", []⟩

/-- **C1** witness: the amended formula evaluated on a concrete
two-entry one-page document. -/
theorem c1_content_formula_witness :
    (["1 aaa 2 bbb"] : List String) ≠ [] ∧
    _extract_section_content ["1 aaa 2 bbb"] entA (some entB) =
      some (claimContentTrimmed ["1 aaa 2 bbb"] entA (some entB)) :=
  ⟨by decide, c1_content_formula ["1 aaa 2 bbb"] entA (some entB)
    (by decide) (fun ns hns => by cases hns; decide)⟩

/-! ### Claim C2 -/

/-- **C2** counterexample: two adjacent entries on the same single
page (`start_page = end_page = 0`).  The claim says the end-page logic
is skipped and no fragment of the shared page is included twice, but
the code's guard `end_page < len(text_pages)` holds, so the end-page
step re-processes the start page: the first section's content is
`"aaa 2 bbb 1 aaa"` — the after-own-heading fragment *and* the
before-next-heading fragment of the same page — not the skip-step
result `"aaa 2 bbb"`. -/
theorem c2_counterexample :
    parse_document_sections ["1 aaa 2 bbb"] [entA, entB] =
      some [⟨entA, "aaa 2 bbb 1 aaa"⟩, ⟨entB, "bbb"⟩] ∧
    claimExtractSkipShared ["1 aaa 2 bbb"] entA (some entB) = "aaa 2 bbb" ∧
    ("aaa 2 bbb 1 aaa" : String) ≠ "aaa 2 bbb" :=
  ⟨by decide, by decide, by decide⟩

/-- **C2** amended: for two adjacent entries on the same valid page
(`start_page = end_page`), the start-page logic runs *and* the
end-page logic also runs on that same page (its guard `end_page <
pageCount` holds): no middle pages contribute, and the content is the
after-own-heading fragment followed by the before-next-heading
fragment of the one shared page — the shared page is processed twice,
not once. -/
theorem c2_degenerate_window (pages : List String) (sec ns : ToCEntry)
    (h1 : 1 ≤ sec.page) (h2 : sec.page ≤ pages.length)
    (hsame : ns.page = sec.page) :
    _extract_section_content pages sec (some ns) =
      some (pyStrip (String.intercalate " "
        [startFrag sec (pages.getD (sec.page - 1) ""),
         endFragTxt ns (pages.getD (sec.page - 1) "")])) := by
  have hs : extractStart pages sec = (sec.page : Int) - 1 := by
    unfold extractStart; omega
  have he : extractEnd pages (some ns) = (sec.page : Int) - 1 := by
    unfold extractEnd; dsimp only; omega
  unfold _extract_section_content
  rw [hs, he]
  rw [pyGet_nonneg pages _ (by omega) (by omega)]
  have hr : intRange ((sec.page : Int) - 1 + 1) ((sec.page : Int) - 1) = [] := by
    unfold intRange
    rw [show (((sec.page : Int) - 1) - ((sec.page : Int) - 1 + 1)).toNat = 0
      by omega]
    rfl
  rw [hr]
  rw [show (([] : List Int).mapM (fun p => pyGet pages p)) =
    some ([] : List String) from rfl]
  unfold endFragsOf
  dsimp only
  rw [if_pos (by omega)]
  rw [pyGet_nonneg pages _ (by omega) (by omega)]
  simp only [Option.map_some', Option.some_bind, List.map_nil,
    List.nil_append]
  rw [show ((sec.page : Int) - 1).toNat = sec.page - 1 by omega]

/-- **C2** witness: the amended behaviour on the concrete shared-page
input of the counterexample. -/
theorem c2_degenerate_window_witness :
    1 ≤ entA.page ∧ entA.page ≤ (["1 aaa 2 bbb"] : List String).length ∧
    entB.page = entA.page ∧
    _extract_section_content ["1 aaa 2 bbb"] entA (some entB) =
      some (pyStrip (String.intercalate " "
        [startFrag entA ((["1 aaa 2 bbb"] : List String).getD
          (entA.page - 1) ""),
         endFragTxt entB ((["1 aaa 2 bbb"] : List String).getD
          (entA.page - 1) "")])) :=
  ⟨by decide, by decide, by decide,
    c2_degenerate_window ["1 aaa 2 bbb"] entA entB (by decide) (by decide)
      (by decide)⟩
